import Mathlib

/-!
Verification development for the md2word Markdown-to-Word converter.

The Python source (src/md2word/converter.py, src/md2word/config.py) is
shallowly embedded below.  Text manipulated by the converter's regular
expressions is modelled as `List Char`; Python dictionaries keyed by
heading level are modelled as association lists so that key presence is
tracked exactly; the external services (HTTP image download, the docx
image probe, the HTML-to-document-tree builder) are oracle parameters,
faithful because the source wraps every call to them in a catch-all or
a dedicated except clause.
-/

set_option maxRecDepth 4000

namespace Md2Word

/-! ### Basic character helpers -/

/-- Python `str.isspace` characters relevant here (ASCII whitespace,
matching the `\s` class used by the source's regular expressions). -/
def isSpaceChar (c : Char) : Bool :=
  c = ' ' || c = '\t' || c = '\n' || c = '\r' || c = '\x0b' || c = '\x0c'

/-- The apostrophe character (U+0027). -/
def squoteChar : Char := Char.ofNat 39

/-- ASCII lower-casing, used to model the `re.IGNORECASE` flag. -/
def lowerChar (c : Char) : Char :=
  if 'A' ≤ c && c ≤ 'Z' then Char.ofNat (c.toNat + 32) else c

/-- Case-insensitive prefix test: does `lit` (already lower case) start
the lower-cased `s`? -/
def lowerStartsWith (lit : List Char) (s : List Char) : Bool :=
  List.isPrefixOf lit (s.take lit.length |>.map lowerChar)

/-- Decimal digit character, as produced by Python `str` on a natural. -/
def digitChar (d : Nat) : Char :=
  match d with
  | 0 => '0' | 1 => '1' | 2 => '2' | 3 => '3' | 4 => '4'
  | 5 => '5' | 6 => '6' | 7 => '7' | 8 => '8' | _ => '9'

/-- Digit production loop for `pyStr`, structurally recursive on a
fuel argument (`fuel ≥ n` always suffices). -/
def pyStrAux : Nat → Nat → List Char
  | 0, n => [digitChar n]
  | fuel + 1, n =>
    if n < 10 then [digitChar n]
    else pyStrAux fuel (n / 10) ++ [digitChar (n % 10)]

/-- Python `str(n)` for a natural number: most-significant digit first. -/
def pyStr (n : Nat) : List Char :=
  pyStrAux n n

/-- Python `str(n)` for an integer (adds a leading minus sign). -/
def pyStrInt (n : Int) : List Char :=
  if n < 0 then '-' :: pyStr (-n).toNat else pyStr n.toNat

/-- Numeric value of a digit character. -/
def charVal (c : Char) : Nat := c.toNat - 48

/-- Decimal decoding, inverse of `pyStr`. -/
def decodeDigits (s : List Char) : Nat :=
  s.foldl (fun a c => 10 * a + charVal c) 0

theorem charVal_digitChar {d : Nat} (h : d < 10) : charVal (digitChar d) = d := by
  interval_cases d <;> decide

theorem decodeDigits_append (s : List Char) (c : Char) :
    decodeDigits (s ++ [c]) = 10 * decodeDigits s + charVal c := by
  simp [decodeDigits, List.foldl_append]

theorem decodeDigits_pyStrAux (fuel : Nat) :
    ∀ n, n ≤ fuel → decodeDigits (pyStrAux fuel n) = n := by
  induction fuel with
  | zero =>
    intro n hn
    have : n = 0 := by omega
    subst this
    decide
  | succ fuel ih =>
    intro n hn
    rw [pyStrAux]
    by_cases h : n < 10
    · rw [if_pos h]
      simp [decodeDigits, charVal_digitChar h]
    · rw [if_neg h, decodeDigits_append,
        ih (n / 10) (by omega),
        charVal_digitChar (Nat.mod_lt _ (by omega))]
      omega

theorem decodeDigits_pyStr (n : Nat) : decodeDigits (pyStr n) = n :=
  decodeDigits_pyStrAux n n (le_refl n)

theorem pyStr_injective : Function.Injective pyStr := by
  intro a b h
  have := congrArg decodeDigits h
  rwa [decodeDigits_pyStr, decodeDigits_pyStr] at this

/-- Python `str.strip()` restricted to the whitespace alphabet above. -/
def pyStrip (s : List Char) : List Char :=
  ((s.dropWhile isSpaceChar).reverse.dropWhile isSpaceChar).reverse

/-- Split `s` at the first (case-insensitive) occurrence of `lit`,
returning the part before and the part after the occurrence. -/
def splitFirstCI (lit : List Char) : List Char → Option (List Char × List Char)
  | [] => if lit.isEmpty then some ([], []) else none
  | c :: rest =>
    if lowerStartsWith lit (c :: rest) then some ([], (c :: rest).drop lit.length)
    else
      match splitFirstCI lit rest with
      | some (pre, post) => some (c :: pre, post)
      | none => none

/-- Replace every (case-sensitive) occurrence of the literal `pat` by
`rep`, left to right and non-overlapping — Python `str.replace`. -/
def replaceAllLit (pat rep : List Char) (fuel : Nat) (s : List Char) : List Char :=
  match fuel with
  | 0 => s
  | fuel + 1 =>
    match s with
    | [] => []
    | c :: rest =>
      if pat ≠ [] && List.isPrefixOf pat (c :: rest) then
        rep ++ replaceAllLit pat rep fuel ((c :: rest).drop pat.length)
      else
        c :: replaceAllLit pat rep fuel rest

/-! ### The generic left-to-right substitution scanner

Python `re.sub(pattern, repl, s)` scans `s` left to right, replaces
each non-overlapping leftmost match, and continues after the
replacement's source span.  `scanSub` models this for matchers that
return the matched span and the remainder; every matcher used below
matches a non-empty span, so `fuel = s.length` always suffices. -/

def scanSub {σ : Type} (m : List Char → Option (List Char × List Char))
    (repl : σ → List Char → σ × List Char) :
    Nat → σ → List Char → σ × List Char
  | 0, st, s => (st, s)
  | fuel + 1, st, s =>
    match s with
    | [] => (st, [])
    | c :: rest =>
      match m (c :: rest) with
      | some (span, after) =>
        let p := repl st span
        let q := scanSub m repl fuel p.1 after
        (q.1, p.2 ++ q.2)
      | none =>
        let q := scanSub m repl fuel st rest
        (q.1, c :: q.2)

/-- Any state invariant preserved by the replacement callback is
preserved by the whole scan. -/
theorem scanSub_invariant {σ : Type} (P : σ → Prop)
    (m : List Char → Option (List Char × List Char))
    (repl : σ → List Char → σ × List Char)
    (hrepl : ∀ st span, P st → P (repl st span).1) :
    ∀ (fuel : Nat) (st : σ) (s : List Char), P st → P (scanSub m repl fuel st s).1 := by
  intro fuel
  induction fuel with
  | zero => intro st s h; exact h
  | succ fuel ih =>
    intro st s h
    match s with
    | [] => exact h
    | c :: rest =>
      simp only [scanSub]
      cases hm : m (c :: rest) with
      | some p =>
        match p with
        | (span, after) => exact ih _ after (hrepl st span h)
      | none => exact ih st rest h

/-! ### HTML entity decoding and the structural extractor
(converter.py `extract_blockquotes`, `extract_code_blocks`) -/

/-- The five sequential `str.replace` calls the source applies to
recovered blockquote/code text. -/
def decodeEntities (s : List Char) : List Char :=
  let s1 := replaceAllLit ("&lt;".toList) ("<".toList) s.length s
  let s2 := replaceAllLit ("&gt;".toList) (">".toList) s1.length s1
  let s3 := replaceAllLit ("&amp;".toList) ("&".toList) s2.length s2
  let s4 := replaceAllLit ("&quot;".toList) ("\"".toList) s3.length s3
  replaceAllLit ("&#39;".toList) [squoteChar] s4.length s4

/-- Remove every HTML tag (`re.sub(r"<[^>]+>", "", ...)`), used on
blockquote bodies. -/
def matchAnyTag (s : List Char) : Option (List Char × List Char) :=
  match s with
  | '<' :: rest =>
    let attrs := rest.takeWhile (· ≠ '>')
    if attrs.isEmpty then none
    else
      match rest.drop attrs.length with
      | '>' :: after => some ('<' :: attrs ++ ['>'], after)
      | _ => none
  | _ => none

def stripTags (s : List Char) : List Char :=
  (scanSub matchAnyTag (fun (u : Unit) _ => (u, [])) s.length () s).2

/-- Matcher for `<blockquote[^>]*>.*?</blockquote>` (DOTALL,
IGNORECASE): the opening tag, then everything up to the first closing
tag. -/
def matchBlockquote (s : List Char) : Option (List Char × List Char) :=
  if lowerStartsWith ("<blockquote".toList) s then
    let rest := s.drop "<blockquote".length
    let attrs := rest.takeWhile (· ≠ '>')
    match rest.drop attrs.length with
    | '>' :: body =>
      match splitFirstCI ("</blockquote>".toList) body with
      | some (inner, after) =>
        some (s.take ("<blockquote".length + attrs.length + 1) ++ inner
          ++ "</blockquote>".toList, after)
      | none => none
    | _ => none
  else none

/-- The blockquote placeholder token (`__BLOCKQUOTE_PLACEHOLDER_i__`). -/
def blockquote_placeholder (i : Nat) : List Char :=
  "__BLOCKQUOTE_PLACEHOLDER_".toList ++ pyStr i ++ "__".toList

/-- The `save_blockquote` callback: strip inner tags, decode entities,
record the text, substitute a placeholder paragraph. -/
def save_blockquote (st : List (List Char)) (span : List Char) :
    List (List Char) × List Char :=
  let text := decodeEntities (pyStrip (stripTags span))
  let st' := st ++ [text]
  (st', "<p>".toList ++ blockquote_placeholder (st'.length - 1) ++ "</p>".toList)

/-- converter.py `extract_blockquotes`: returns the rewritten HTML and
the recovered blockquote texts. -/
def extract_blockquotes (html : List Char) : List Char × List (List Char) :=
  let r := scanSub matchBlockquote save_blockquote html.length [] html
  (r.2, r.1)

/-- One extracted code block: recovered text plus its placeholder. -/
structure CodeBlock where
  code : List Char
  placeholder : List Char
  deriving DecidableEq

/-- The code-block placeholder token (`__CODE_BLOCK_PLACEHOLDER_i__`). -/
def code_placeholder (i : Nat) : List Char :=
  "__CODE_BLOCK_PLACEHOLDER_".toList ++ pyStr i ++ "__".toList

/-- Matcher for `<span[^>]*>`. -/
def matchSpanOpen (s : List Char) : Option (List Char × List Char) :=
  if lowerStartsWith ("<span".toList) s then
    let rest := s.drop "<span".length
    let attrs := rest.takeWhile (· ≠ '>')
    match rest.drop attrs.length with
    | '>' :: after => some (s.take ("<span".length + attrs.length + 1), after)
    | _ => none
  else none

/-- Search for `<tag[^>]*>(.*?)</tag>` (DOTALL, IGNORECASE) anywhere in
`s`, returning the captured group. -/
def searchTagContent (tagName : List Char) (s : List Char) : Option (List Char) :=
  match splitFirstCI ('<' :: tagName) s with
  | none => none
  | some (_, afterOpen) =>
    let attrs := afterOpen.takeWhile (· ≠ '>')
    match afterOpen.drop attrs.length with
    | '>' :: body =>
      match splitFirstCI ('<' :: '/' :: tagName ++ ['>']) body with
      | some (inner, _) => some inner
      | none => none
    | _ => none

/-- The `save_code_block` callback: drop `<span>` highlighting tags,
pull the text out of the `<code>` element (or the `<pre>` body as
fallback), decode entities, record the block, substitute a placeholder
paragraph.  `len(code_blocks)` is evaluated before the append, so the
placeholder index is the block's position. -/
def save_code_block (st : List CodeBlock) (span : List Char) :
    List CodeBlock × List Char :=
  let c1 := (scanSub matchSpanOpen (fun (u : Unit) _ => (u, [])) span.length () span).2
  let clean := replaceAllLit ("</span>".toList) [] c1.length c1
  let code_text :=
    match searchTagContent ("code".toList) clean with
    | some inner => decodeEntities inner
    | none =>
      match searchTagContent ("pre".toList) clean with
      | some inner => inner
      | none => []
  let ph := code_placeholder st.length
  let st' := st ++ [{ code := pyStrip code_text, placeholder := ph }]
  (st', "<p>".toList ++ ph ++ "</p>".toList)

/-- Matcher for the standalone `<pre[^>]*>.*?</pre>` pattern. -/
def matchPreBlock (s : List Char) : Option (List Char × List Char) :=
  if lowerStartsWith ("<pre".toList) s then
    let rest := s.drop "<pre".length
    let attrs := rest.takeWhile (· ≠ '>')
    match rest.drop attrs.length with
    | '>' :: body =>
      match splitFirstCI ("</pre>".toList) body with
      | some (inner, after) =>
        some (s.take ("<pre".length + attrs.length + 1) ++ inner
          ++ "</pre>".toList, after)
      | none => none
    | _ => none
  else none

/-- Non-greedy search for `</pre>\s*</div>` starting inside a
codehilite wrapper: extend past earlier `</pre>` occurrences until one
is followed (modulo whitespace) by `</div>`. -/
def findPreCloseThenDiv (fuel : Nat) (body : List Char) :
    Option (List Char × List Char) :=
  match fuel with
  | 0 => none
  | fuel + 1 =>
    match splitFirstCI ("</pre>".toList) body with
    | none => none
    | some (inner, rest) =>
      let rest' := rest.dropWhile isSpaceChar
      if lowerStartsWith ("</div>".toList) rest' then
        some (inner, rest'.drop "</div>".length)
      else
        match findPreCloseThenDiv fuel rest with
        | some (inner2, after) =>
          some (inner ++ "</pre>".toList ++ inner2, after)
        | none => none

/-- Matcher for the wrapper pattern
`<div[^>]*class="codehilite"[^>]*>\s*<pre[^>]*>.*?</pre>\s*</div>`. -/
def matchCodehilite (s : List Char) : Option (List Char × List Char) :=
  if lowerStartsWith ("<div".toList) s then
    let rest := s.drop "<div".length
    let attrs := rest.takeWhile (· ≠ '>')
    if (splitFirstCI ("class=\"codehilite\"".toList) attrs).isSome then
      match rest.drop attrs.length with
      | '>' :: afterTag =>
        let afterWs := afterTag.dropWhile isSpaceChar
        if lowerStartsWith ("<pre".toList) afterWs then
          let rest2 := afterWs.drop "<pre".length
          let attrs2 := rest2.takeWhile (· ≠ '>')
          match rest2.drop attrs2.length with
          | '>' :: body =>
            match findPreCloseThenDiv body.length body with
            | some (_, after) =>
              some (s.take (s.length - after.length), after)
            | none => none
          | _ => none
        else none
      | _ => none
    else none
  else none

/-- Matcher for inline code `<code>([^<]*)</code>` (IGNORECASE). -/
def matchInlineCode (s : List Char) : Option (List Char × List Char) :=
  if lowerStartsWith ("<code>".toList) s then
    let body := s.drop "<code>".length
    let content := body.takeWhile (· ≠ '<')
    if lowerStartsWith ("</code>".toList) (body.drop content.length) then
      some (s.take ("<code>".length + content.length + "</code>".length),
        (body.drop content.length).drop "</code>".length)
    else none
  else none

/-- The `mark_inline_code` callback: decode entities, record the
snippet, wrap it in the `⟦CODE⟧ … ⟦/CODE⟧` marker pair. -/
def mark_inline_code (st : List (List Char)) (span : List Char) :
    List (List Char) × List Char :=
  let content := (span.drop "<code>".length).take (span.length - "<code></code>".length)
  let code_text := decodeEntities content
  (st ++ [code_text], "⟦CODE⟧".toList ++ code_text ++ "⟦/CODE⟧".toList)

/-- converter.py `extract_code_blocks`: codehilite wrappers first, then
bare `<pre>` blocks (both feeding one `code_blocks` list), then inline
`<code>` spans; returns the rewritten HTML, the code blocks, and the
inline snippets. -/
def extract_code_blocks (html : List Char) :
    List Char × List CodeBlock × List (List Char) :=
  let r1 := scanSub matchCodehilite save_code_block html.length [] html
  let r2 := scanSub matchPreBlock save_code_block r1.2.length r1.1 r1.2
  let r3 := scanSub matchInlineCode mark_inline_code r2.2.length [] r2.2
  (r3.2, r2.1, r3.1)

/-! ### Heading numbering (converter.py `HeadingNumbering`)

The Python `counters` dict (heading level → count) is modelled as an
association list so key presence is tracked exactly; insertion appends
at the end and update preserves position, as Python dicts do. -/

def CHINESE_NUMBERS : List String :=
  ["零", "一", "二", "三", "四", "五", "六", "七", "八", "九", "十",
   "十一", "十二", "十三", "十四", "十五", "十六", "十七", "十八", "十九", "二十"]

/-- converter.py `number_to_chinese`. -/
def number_to_chinese (n : Nat) : List Char :=
  if n ≤ 20 then (CHINESE_NUMBERS.getD n "").toList else pyStr n

def ROMAN_NUMERALS : List String :=
  ["", "I", "II", "III", "IV", "V", "VI", "VII", "VIII", "IX", "X",
   "XI", "XII", "XIII", "XIV", "XV", "XVI", "XVII", "XVIII", "XIX", "XX"]

def CIRCLE_NUMBERS : List String :=
  ["⓪", "①", "②", "③", "④", "⑤", "⑥", "⑦", "⑧", "⑨", "⑩",
   "⑪", "⑫", "⑬", "⑭", "⑮", "⑯", "⑰", "⑱", "⑲", "⑳"]

/-- The `FORMATS` template table. -/
def FORMATS (name : String) : List Char :=
  if name = "chapter" then "第{n}章".toList
  else if name = "section" then "第{n}节".toList
  else if name = "chinese" then "{n}、".toList
  else if name = "chinese_paren" then "（{n}）".toList
  else if name = "arabic" then "{n}.".toList
  else if name = "arabic_paren" then "({n})".toList
  else if name = "arabic_bracket" then "[{n}]".toList
  else []

/-- Python `str.format` with keyword arguments `n` and `cn`, modelled
for plain replacement fields (auto-numbered fields and format
specifications are treated as errors, which the caller maps to its
documented fallback). -/
def pyFormat (nv cnv : List Char) : Nat → List Char → Except Unit (List Char)
  | 0, s => .ok s
  | _ + 1, [] => .ok []
  | fuel + 1, '{' :: '{' :: rest =>
    (pyFormat nv cnv fuel rest).map (fun t => '{' :: t)
  | fuel + 1, '}' :: '}' :: rest =>
    (pyFormat nv cnv fuel rest).map (fun t => '}' :: t)
  | fuel + 1, '{' :: rest =>
    let key := rest.takeWhile (· ≠ '}')
    match rest.drop key.length with
    | '}' :: rest2 =>
      if key = "n".toList then (pyFormat nv cnv fuel rest2).map (fun t => nv ++ t)
      else if key = "cn".toList then (pyFormat nv cnv fuel rest2).map (fun t => cnv ++ t)
      else .error ()
    | _ => .error ()
  | _ + 1, '}' :: _ => .error ()
  | fuel + 1, c :: rest =>
    (pyFormat nv cnv fuel rest).map (fun t => c :: t)

/-- Python `str.format` on the constant `FORMATS` templates, which cannot fail. -/
def pyFormatOk (nv cnv t : List Char) : List Char :=
  match pyFormat nv cnv t.length t with
  | .ok out => out
  | .error _ => []

/-- The label-rendering part of `HeadingNumbering.get_number`, a pure
function of the format name and the (already incremented) counter
value. -/
def render_number (fmt : String) (n : Nat) : List Char :=
  if fmt = "chapter" || fmt = "section" then
    pyFormatOk (number_to_chinese n) [] (FORMATS fmt)
  else if fmt = "chinese" || fmt = "chinese_paren" then
    pyFormatOk (number_to_chinese n) [] (FORMATS fmt)
  else if fmt = "arabic" || fmt = "arabic_paren" || fmt = "arabic_bracket" then
    pyFormatOk (pyStr n) [] (FORMATS fmt)
  else if fmt = "roman" then
    (if n ≤ 20 then (ROMAN_NUMERALS.getD n "").toList else pyStr n) ++ ".".toList
  else if fmt = "roman_lower" then
    (if n ≤ 20 then ((ROMAN_NUMERALS.getD n "").toList).map lowerChar else pyStr n)
      ++ ".".toList
  else if fmt = "letter" then
    (if n ≤ 26 then [Char.ofNat (65 + n - 1)] else pyStr n) ++ ".".toList
  else if fmt = "letter_lower" then
    (if n ≤ 26 then [Char.ofNat (97 + n - 1)] else pyStr n) ++ ".".toList
  else if fmt = "circle" then
    (if n ≤ 20 then (CIRCLE_NUMBERS.getD n "").toList
     else "(".toList ++ pyStr n ++ ")".toList)
  else
    match pyFormat (pyStr n) (number_to_chinese n) fmt.toList.length fmt.toList with
    | .ok out => out
    | .error _ => pyStr n ++ ". ".toList

/-- Python dict lookup (first matching key). -/
def dictGet : List (Nat × Nat) → Nat → Option Nat
  | [], _ => none
  | (k', v) :: rest, k => if k' = k then some v else dictGet rest k

/-- Python dict assignment: update in place, or append a new key. -/
def dictSet : List (Nat × Nat) → Nat → Nat → List (Nat × Nat)
  | [], k, v => [(k, v)]
  | (k', v') :: rest, k, v =>
    if k' = k then (k, v) :: rest else (k', v') :: dictSet rest k v

/-- The reset loop of `get_number`: zero every counter stored at a
level strictly greater than `level`. -/
def resetAbove (level : Nat) (d : List (Nat × Nat)) : List (Nat × Nat) :=
  d.map (fun kv => if level < kv.1 then (kv.1, 0) else kv)

/-- The presence check `if level not in self.counters: self.counters[level] = 0`. -/
def ensureKey (d : List (Nat × Nat)) (k : Nat) : List (Nat × Nat) :=
  if (dictGet d k).isNone then dictSet d k 0 else d

/-- The counters after a rendering `get_number` call at `level`:
ensure the key, increment it, zero every deeper counter. -/
def countersAfter (d : List (Nat × Nat)) (level : Nat) : List (Nat × Nat) :=
  resetAbove level
    (dictSet (ensureKey d level) level ((dictGet (ensureKey d level) level).getD 0 + 1))

/-- converter.py `HeadingNumbering.get_number`: returns the rendered
label and the updated counters. -/
def get_number (counters : List (Nat × Nat)) (level : Nat)
    (format_name : Option String) : List Char × List (Nat × Nat) :=
  match format_name with
  | none => ([], counters)
  | some fmt =>
    if fmt = "" || fmt = "none" then ([], counters)
    else
      let reset := countersAfter counters level
      let n := (dictGet reset level).getD 0
      (render_number fmt n, reset)

theorem dictGet_dictSet_self (d : List (Nat × Nat)) (k v : Nat) :
    dictGet (dictSet d k v) k = some v := by
  induction d with
  | nil => simp [dictGet, dictSet]
  | cons kv rest ih =>
    rcases kv with ⟨k', v'⟩
    by_cases h : k' = k
    · simp [dictGet, dictSet, h]
    · simp [dictGet, dictSet, h, ih]

theorem dictGet_dictSet_ne (d : List (Nat × Nat)) (k v l : Nat) (h : l ≠ k) :
    dictGet (dictSet d k v) l = dictGet d l := by
  induction d with
  | nil =>
    have : ¬ k = l := fun hh => h hh.symm
    simp [dictGet, dictSet, this]
  | cons kv rest ih =>
    rcases kv with ⟨k', v'⟩
    have h1 : ¬ k = l := fun hh => h hh.symm
    by_cases hk : k' = k
    · subst hk
      simp [dictGet, dictSet, h1]
    · by_cases hl : k' = l <;> simp [dictGet, dictSet, h, hk, hl, h1, ih]

theorem dictGet_resetAbove_le (L : Nat) (d : List (Nat × Nat)) (l : Nat)
    (h : l ≤ L) : dictGet (resetAbove L d) l = dictGet d l := by
  induction d with
  | nil => simp [resetAbove, dictGet]
  | cons kv rest ih =>
    rcases kv with ⟨k', v'⟩
    simp only [resetAbove, List.map_cons] at ih ⊢
    by_cases hgt : L < k'
    · have hne : ¬ k' = l := by omega
      rw [if_pos hgt]
      simp [dictGet, hne, ih]
    · rw [if_neg hgt]
      by_cases hl : k' = l <;> simp [dictGet, hl, ih]

theorem dictGet_resetAbove_gt (L : Nat) (d : List (Nat × Nat)) (l : Nat)
    (h : L < l) : dictGet (resetAbove L d) l = (dictGet d l).map (fun _ => 0) := by
  induction d with
  | nil => simp [resetAbove, dictGet]
  | cons kv rest ih =>
    rcases kv with ⟨k', v'⟩
    simp only [resetAbove, List.map_cons] at ih ⊢
    by_cases hl : k' = l
    · subst hl
      rw [if_pos h]
      simp [dictGet]
    · by_cases hgt : L < k'
      · rw [if_pos hgt]
        simp [dictGet, hl, ih]
      · rw [if_neg hgt]
        simp [dictGet, hl, ih]

theorem dictGet_ensureKey_ne (d : List (Nat × Nat)) (k l : Nat) (h : l ≠ k) :
    dictGet (ensureKey d k) l = dictGet d l := by
  unfold ensureKey
  by_cases hnone : (dictGet d k).isNone
  · rw [if_pos hnone, dictGet_dictSet_ne d k 0 l h]
  · rw [if_neg hnone]

theorem dictGet_ensureKey_self (d : List (Nat × Nat)) (k : Nat) :
    dictGet (ensureKey d k) k = some ((dictGet d k).getD 0) := by
  unfold ensureKey
  rcases hv : dictGet d k with _ | v
  · simp [dictGet_dictSet_self]
  · rw [if_neg (by simp), hv]
    rfl

theorem dictGet_countersAfter_self (d : List (Nat × Nat)) (k : Nat) :
    dictGet (countersAfter d k) k = some ((dictGet d k).getD 0 + 1) := by
  unfold countersAfter
  rw [dictGet_resetAbove_le k _ k (le_refl k), dictGet_dictSet_self,
    dictGet_ensureKey_self]
  rfl

theorem dictGet_countersAfter_lt (d : List (Nat × Nat)) (k l : Nat) (h : l < k) :
    dictGet (countersAfter d k) l = dictGet d l := by
  unfold countersAfter
  rw [dictGet_resetAbove_le k _ l (le_of_lt h),
    dictGet_dictSet_ne _ k _ l (by omega), dictGet_ensureKey_ne d k l (by omega)]

theorem dictGet_countersAfter_gt (d : List (Nat × Nat)) (k l : Nat) (h : k < l) :
    dictGet (countersAfter d k) l = (dictGet d l).map (fun _ => 0) := by
  unfold countersAfter
  rw [dictGet_resetAbove_gt k _ l h, dictGet_dictSet_ne _ k _ l (by omega),
    dictGet_ensureKey_ne d k l (by omega)]

theorem get_number_eq_of_valid (d : List (Nat × Nat)) (level : Nat) (fmt : String)
    (hfmt : fmt ≠ "" ∧ fmt ≠ "none") :
    get_number d level (some fmt) =
      (render_number fmt ((dictGet d level).getD 0 + 1), countersAfter d level) := by
  have hc : ¬ (fmt = "" || fmt = "none") = true := by
    simp [hfmt.1, hfmt.2]
  simp only [get_number]
  rw [if_neg hc, dictGet_countersAfter_self]
  rfl

/-- C2: a `get_number` call at level `L1` with a rendering format
resets any stored deeper counter to zero (a never-seen deeper counter
stays absent), so the next rendering call at a deeper level `L2`
renders the label for 1, while counters at levels at or below `L1`
other than `L1` itself are untouched. -/
theorem get_number_resets_deeper_levels
    (d : List (Nat × Nat)) (L1 L2 : Nat) (fmt fmt' : String)
    (hlt : L1 < L2)
    (hfmt : fmt ≠ "" ∧ fmt ≠ "none")
    (hfmt' : fmt' ≠ "" ∧ fmt' ≠ "none") :
    (dictGet (get_number d L1 (some fmt)).2 L2 = some 0 ∨
      dictGet (get_number d L1 (some fmt)).2 L2 = none) ∧
    (get_number (get_number d L1 (some fmt)).2 L2 (some fmt')).1
      = render_number fmt' 1 ∧
    (∀ l, l ≤ L1 → l ≠ L1 →
      dictGet (get_number d L1 (some fmt)).2 l = dictGet d l) := by
  rw [get_number_eq_of_valid d L1 fmt hfmt]
  have hL2 : dictGet (countersAfter d L1) L2 = (dictGet d L2).map (fun _ => 0) :=
    dictGet_countersAfter_gt d L1 L2 hlt
  refine ⟨?_, ?_, ?_⟩
  · rcases hdl : dictGet d L2 with _ | v
    · right; rw [hL2, hdl]; rfl
    · left; rw [hL2, hdl]; rfl
  · rw [get_number_eq_of_valid _ L2 fmt' hfmt']
    have hzero : (dictGet (countersAfter d L1) L2).getD 0 = 0 := by
      rw [hL2]; rcases dictGet d L2 with _ | v <;> rfl
    rw [hzero]
  · intro l hle hne
    exact dictGet_countersAfter_lt d L1 l (lt_of_le_of_ne hle hne)

/-- C2 witness: level 1 "arabic" after a level-2 increment resets the
level-2 counter, and the next level-2 call renders "1.". -/
theorem get_number_resets_deeper_levels_witness :
    (1 : Nat) < 2 ∧
    (dictGet (get_number [(1, 1), (2, 2)] 1 (some "arabic")).2 2 = some 0 ∨
      dictGet (get_number [(1, 1), (2, 2)] 1 (some "arabic")).2 2 = none) ∧
    (get_number (get_number [(1, 1), (2, 2)] 1 (some "arabic")).2 2
      (some "arabic")).1 = render_number "arabic" 1 := by
  have h := get_number_resets_deeper_levels [(1, 1), (2, 2)] 1 2 "arabic" "arabic"
    (by decide) (by decide) (by decide)
  exact ⟨by decide, h.1, h.2.1⟩

/-! ### C1: placeholder tokens -/

theorem code_placeholder_injective : Function.Injective code_placeholder := by
  intro a b h
  unfold code_placeholder at h
  exact pyStr_injective (List.append_cancel_left (List.append_cancel_right h))

theorem blockquote_placeholder_injective :
    Function.Injective blockquote_placeholder := by
  intro a b h
  unfold blockquote_placeholder at h
  exact pyStr_injective (List.append_cancel_left (List.append_cancel_right h))

/-- The running `code_blocks` list always carries the placeholder of
its own position: the source evaluates `len(code_blocks)` while
building the appended record. -/
def placeholdersIndexed (st : List CodeBlock) : Prop :=
  st.map (fun b => b.placeholder)
    = (List.range st.length).map code_placeholder

theorem save_code_block_indexed (st : List CodeBlock) (span : List Char)
    (h : placeholdersIndexed st) :
    placeholdersIndexed (save_code_block st span).1 := by
  unfold placeholdersIndexed at h ⊢
  simp only [save_code_block, List.map_append, List.length_append, List.map_cons,
    List.map_nil, List.length_cons, List.length_nil]
  rw [h, List.range_succ]
  simp

theorem extract_code_blocks_indexed (html : List Char) :
    placeholdersIndexed (extract_code_blocks html).2.1 := by
  unfold extract_code_blocks
  exact scanSub_invariant placeholdersIndexed matchPreBlock save_code_block
    save_code_block_indexed _ _ _
    (scanSub_invariant placeholdersIndexed matchCodehilite save_code_block
      save_code_block_indexed _ _ _ (by simp [placeholdersIndexed]))

/-- C1 (amended): within one conversion the generated placeholder
tokens are those of a monotonic counter — the k-th extracted code block
carries exactly the token `__CODE_BLOCK_PLACEHOLDER_k__`, so the code
block tokens are pairwise distinct, and likewise the blockquote tokens
`__BLOCKQUOTE_PLACEHOLDER_i__` generated for the extracted blockquotes
are pairwise distinct.  (No guarantee against the token text occurring
in user content is made — see the counterexample.) -/
theorem placeholder_tokens_counter_generated (html : List Char) :
    ((extract_code_blocks html).2.1.map (fun b => b.placeholder)
      = (List.range (extract_code_blocks html).2.1.length).map code_placeholder)
    ∧ ((extract_code_blocks html).2.1.map (fun b => b.placeholder)).Nodup
    ∧ ((List.range (extract_blockquotes html).2.length).map
        blockquote_placeholder).Nodup := by
  have h := extract_code_blocks_indexed html
  unfold placeholdersIndexed at h
  refine ⟨h, ?_, ?_⟩
  · rw [h]
    exact (List.nodup_range _).map code_placeholder_injective
  · exact (List.nodup_range _).map blockquote_placeholder_injective

/-- C1 counterexample: the token generated for the sole code block of
this input also occurs verbatim in the user-supplied HTML (as the text
of the first paragraph), so tokens are not collision-free against user
content. -/
theorem placeholder_token_collides_with_user_content :
    ("<p>__CODE_BLOCK_PLACEHOLDER_0__</p><pre><code>x</code></pre>".toList
      = "<p>".toList ++ code_placeholder 0
        ++ "</p><pre><code>x</code></pre>".toList)
    ∧ ((extract_code_blocks
        "<p>__CODE_BLOCK_PLACEHOLDER_0__</p><pre><code>x</code></pre>".toList).2.1.map
        (fun b => b.placeholder) = [code_placeholder 0]) := by
  constructor
  · decide
  · decide

/-! ### Image reference handling
(converter.py `_extract_img_attr`, `_replace_img_src`,
`sanitize_html_images`, `filter_unrecognized_images`,
`process_markdown_images`)

The external effects — HTTP download (`download_image`), data-URI
decoding (`decode_data_uri_image`), local-file re-encoding
(`ensure_local_image_compatible`) and the docx probe
(`is_docx_image_supported`) — are oracle parameters.  Each returns
`Option`/`Bool` exactly as the wrapped Python helper does: every one of
those helpers catches all exceptions and returns `None`/`False`. -/

/-- ASCII part of the `\w` class (, sufficient for the tags handled here). -/
def wordChar (c : Char) : Bool :=
  ('a' ≤ c && c ≤ 'z') || ('A' ≤ c && c ≤ 'Z') || ('0' ≤ c && c ≤ '9') || c = '_'

/-- First regex of `_extract_img_attr`:
`{attr}\s*=\s*(["\'])(.*?)\1` (IGNORECASE, no DOTALL) tried at one
position; returns the captured value. -/
def matchAttrQuotedAt (attr : List Char) (s : List Char) : Option (List Char) :=
  if lowerStartsWith attr s then
    let r2 := (s.drop attr.length).dropWhile isSpaceChar
    match r2 with
    | '=' :: r3 =>
      match r3.dropWhile isSpaceChar with
      | q :: r5 =>
        if q = '"' || q = squoteChar then
          let content := r5.takeWhile (fun c => c ≠ q && c ≠ '\n')
          match r5.drop content.length with
          | q' :: _ => if q' = q then some content else none
          | [] => none
        else none
      | [] => none
    | _ => none
  else none

/-- Second regex of `_extract_img_attr`: `{attr}\s*=\s*([^\s>]+)`. -/
def matchAttrUnquotedAt (attr : List Char) (s : List Char) : Option (List Char) :=
  if lowerStartsWith attr s then
    let r2 := (s.drop attr.length).dropWhile isSpaceChar
    match r2 with
    | '=' :: r3 =>
      let r4 := r3.dropWhile isSpaceChar
      let content := r4.takeWhile (fun c => !isSpaceChar c && c ≠ '>')
      if content.isEmpty then none else some content
    | _ => none
  else none

/-- Model of `re.search`: try a positional matcher at every position, leftmost
first. -/
def searchAt (m : List Char → Option (List Char)) : List Char → Option (List Char)
  | [] => m []
  | c :: rest =>
    match m (c :: rest) with
    | some v => some v
    | none => searchAt m rest

/-- converter.py `_extract_img_attr`. -/
def extract_img_attr (tag attr : List Char) : Option (List Char) :=
  match searchAt (matchAttrQuotedAt attr) tag with
  | some v => some v
  | none => searchAt (matchAttrUnquotedAt attr) tag

/-- Positional matcher for `\bsrc\s*=\s*([\'"])(.*?)\1`; the word
boundary is checked by the caller against the previous character. -/
def matchSrcQuotedAt (s : List Char) : Option (List Char × List Char) :=
  if lowerStartsWith ("src".toList) s then
    let r2 := (s.drop 3).dropWhile isSpaceChar
    match r2 with
    | '=' :: r3 =>
      match r3.dropWhile isSpaceChar with
      | q :: r5 =>
        if q = '"' || q = squoteChar then
          let content := r5.takeWhile (fun c => c ≠ q && c ≠ '\n')
          match r5.drop content.length with
          | q' :: after =>
            if q' = q then some (s.take (s.length - after.length), after) else none
          | [] => none
        else none
      | [] => none
    | _ => none
  else none

/-- Positional matcher for `\bsrc\s*=\s*([^\s>]+)`. -/
def matchSrcUnquotedAt (s : List Char) : Option (List Char × List Char) :=
  if lowerStartsWith ("src".toList) s then
    let r2 := (s.drop 3).dropWhile isSpaceChar
    match r2 with
    | '=' :: r3 =>
      let r4 := r3.dropWhile isSpaceChar
      let content := r4.takeWhile (fun c => !isSpaceChar c && c ≠ '>')
      if content.isEmpty then none
      else some (s.take (s.length - (r4.drop content.length).length),
        r4.drop content.length)
    | _ => none
  else none

/-- Model of `re.sub` with a constant replacement and a leading `\b` on the
pattern: `prev` is the character before the current position in the
original string. -/
def subBoundary (m : List Char → Option (List Char × List Char))
    (replacement : List Char) : Nat → Option Char → List Char → List Char
  | 0, _, s => s
  | _ + 1, _, [] => []
  | fuel + 1, prev, c :: rest =>
    let boundary := match prev with
      | none => true
      | some p => !wordChar p
    if boundary then
      match m (c :: rest) with
      | some (span, after) =>
        replacement ++ subBoundary m replacement fuel span.getLast? after
      | none => c :: subBoundary m replacement fuel (some c) rest
    else c :: subBoundary m replacement fuel (some c) rest

/-- converter.py `_replace_img_src`. -/
def replace_img_src (tag new_src : List Char) : List Char :=
  let replacement := "src=\"".toList ++ new_src ++ "\"".toList
  let updated := subBoundary matchSrcQuotedAt replacement tag.length none tag
  if updated ≠ tag then updated
  else
    let updated2 := subBoundary matchSrcUnquotedAt replacement tag.length none tag
    if updated2 ≠ tag then updated2
    else
      match extract_img_attr tag ("alt".toList) with
      | some alt =>
        if alt.isEmpty then "<img src=\"".toList ++ new_src ++ "\">".toList
        else "<img src=\"".toList ++ new_src ++ "\" alt=\"".toList ++ alt
          ++ "\">".toList
      | none => "<img src=\"".toList ++ new_src ++ "\">".toList

/-- Matcher for `<img\b[^>]*>` (IGNORECASE). -/
def matchImgTag (s : List Char) : Option (List Char × List Char) :=
  if lowerStartsWith ("<img".toList) s then
    let rest := s.drop 4
    let boundary := match rest with
      | [] => true
      | c :: _ => !wordChar c
    if boundary then
      let attrs := rest.takeWhile (· ≠ '>')
      match rest.drop attrs.length with
      | '>' :: after => some (s.take (4 + attrs.length + 1), after)
      | _ => none
    else none
  else none

/-- Python `str.startswith(("http://", "https://"))`. -/
def isRemoteSrc (src : List Char) : Bool :=
  List.isPrefixOf ("http://".toList) src || List.isPrefixOf ("https://".toList) src

/-- The per-tag `replace_img` closure of `sanitize_html_images`. -/
def sanitize_replace_img
    (download decodeUri ensureLocal : List Char → Option (List Char))
    (tag : List Char) : List Char :=
  let src? := extract_img_attr tag ("src".toList)
  let alt := (extract_img_attr tag ("alt".toList)).getD []
  match src? with
  | none => alt
  | some src =>
    if src.isEmpty then alt
    else if isRemoteSrc src then
      match download src with
      | some local_path => replace_img_src tag local_path
      | none => alt
    else if List.isPrefixOf ("data:".toList) src then
      match decodeUri src with
      | some local_path => replace_img_src tag local_path
      | none => alt
    else
      match ensureLocal src with
      | some compatible_path => replace_img_src tag compatible_path
      | none => alt

/-- converter.py `sanitize_html_images` over the download / data-URI /
local-file oracles. -/
def sanitize_html_images
    (download decodeUri ensureLocal : List Char → Option (List Char))
    (html : List Char) : List Char :=
  (scanSub matchImgTag
    (fun (u : Unit) span => (u, sanitize_replace_img download decodeUri ensureLocal span))
    html.length () html).2

/-- The per-tag `replace_img` closure of `filter_unrecognized_images`,
over the `is_docx_image_supported` probe oracle. -/
def filter_replace_img (probe : List Char → Bool) (tag : List Char) : List Char :=
  let src? := extract_img_attr tag ("src".toList)
  let alt := (extract_img_attr tag ("alt".toList)).getD []
  match src? with
  | none => alt
  | some src =>
    if src.isEmpty then alt
    else if isRemoteSrc src || List.isPrefixOf ("data:".toList) src then alt
    else if !probe src then alt
    else tag

/-- converter.py `filter_unrecognized_images`. -/
def filter_unrecognized_images (probe : List Char → Bool) (html : List Char) :
    List Char :=
  (scanSub matchImgTag
    (fun (u : Unit) span => (u, filter_replace_img probe span))
    html.length () html).2

/-- Matcher for `<img[^>]*>` (no word boundary), used by the final
strip-all-images retry in `convert`. -/
def matchImgTagLoose (s : List Char) : Option (List Char × List Char) :=
  if lowerStartsWith ("<img".toList) s then
    let rest := s.drop 4
    let attrs := rest.takeWhile (· ≠ '>')
    match rest.drop attrs.length with
    | '>' :: after => some (s.take (4 + attrs.length + 1), after)
    | _ => none
  else none

/-- The substitution `re.sub(r"<img[^>]*>", "", html)` from the second retry of
`convert`. -/
def strip_all_img_tags (html : List Char) : List Char :=
  (scanSub matchImgTagLoose (fun (u : Unit) _ => (u, [])) html.length () html).2

/-- The per-match `replace_image` closure of
`process_markdown_images`: `alt` and `url` are the two captured
groups. -/
def md_replace_image (download : List Char → Option (List Char))
    (alt url span : List Char) : List Char :=
  if isRemoteSrc url then
    match download url with
    | some local_path =>
      "![".toList ++ alt ++ "](".toList ++ local_path ++ ")".toList
    | none => if alt.isEmpty then [] else alt
  else span

/-- Matcher for the Markdown image pattern `!\[([^\]]*)\]\(([^)]+)\)`,
returning the whole span, the two groups, and the remainder. -/
def matchMdImage (s : List Char) : Option (List Char × List Char × List Char × List Char) :=
  match s with
  | '!' :: '[' :: r1 =>
    let alt := r1.takeWhile (· ≠ ']')
    match r1.drop alt.length with
    | ']' :: '(' :: r2 =>
      let url := r2.takeWhile (· ≠ ')')
      if url.isEmpty then none
      else
        match r2.drop url.length with
        | ')' :: after =>
          some (s.take (s.length - after.length), alt, url, after)
        | _ => none
    | _ => none
  | _ => none

/-- converter.py `process_markdown_images`. -/
def process_markdown_images (download : List Char → Option (List Char)) :
    Nat → List Char → List Char
  | 0, s => s
  | _ + 1, [] => []
  | fuel + 1, c :: rest =>
    match matchMdImage (c :: rest) with
    | some (span, alt, url, after) =>
      md_replace_image download alt url span
        ++ process_markdown_images download fuel after
    | none => c :: process_markdown_images download fuel rest

/-! ### The escalating tree-build retry of `convert` (C3) -/

/-- The distinguishable error conditions of the HTML-to-document-tree
collaborator: `python-docx` raises `UnrecognizedImageError` for an
unembeddable image, anything else is some other exception. -/
inductive PyError where
  | unrecognizedImage
  | other
  deriving DecidableEq

/-- The `try/except UnrecognizedImageError` cascade of `convert`
(lines 1068–1082): build, on an unrecognized image rebuild from the
individually filtered HTML, on a second unrecognized image rebuild
from the HTML with every `<img>` tag removed, with no handler around
the third attempt. -/
def build_with_retry {Doc : Type}
    (probe : List Char → Bool)
    (build : List Char → Except PyError Doc)
    (html : List Char) : Except PyError Doc :=
  match build html with
  | .ok d => .ok d
  | .error e =>
    if e = .unrecognizedImage then
      let html_filtered := filter_unrecognized_images probe html
      match build html_filtered with
      | .ok d => .ok d
      | .error e2 =>
        if e2 = .unrecognizedImage then
          build (strip_all_img_tags html_filtered)
        else .error e2
    else .error e

/-- The strictly escalating inputs attempted by `build_with_retry`:
original HTML, then individually filtered, then all images stripped. -/
def escalation_input (probe : List Char → Bool) (html : List Char) : Nat → List Char
  | 0 => html
  | 1 => filter_unrecognized_images probe html
  | _ => strip_all_img_tags (filter_unrecognized_images probe html)

/-- C3: the tree-build is attempted on the strictly escalating inputs
(original HTML, individually-filtered HTML, HTML with all images
stripped); at most two retries happen; every earlier attempt failed
with the unrecognized-image condition; the overall result is exactly
the last attempt's result — so a success continues the pipeline with
that document, an error on the second retry propagates, and a
non-unrecognized error propagates immediately. -/
theorem build_with_retry_escalation {Doc : Type}
    (probe : List Char → Bool)
    (build : List Char → Except PyError Doc)
    (html : List Char) :
    ∃ k, k ≤ 2 ∧
      (∀ j, j < k →
        build (escalation_input probe html j) = .error .unrecognizedImage) ∧
      build_with_retry probe build html = build (escalation_input probe html k) ∧
      (k < 2 → build_with_retry probe build html ≠ .error .unrecognizedImage) := by
  rcases hb0 : build html with e | d
  case ok =>
    refine ⟨0, by omega, by omega, ?_, ?_⟩
    · simp [build_with_retry, hb0, escalation_input]
    · intro _
      simp [build_with_retry, hb0]
  case error =>
    cases e with
    | other =>
      refine ⟨0, by omega, by omega, ?_, ?_⟩
      · simp [build_with_retry, hb0, escalation_input]
      · intro _
        simp [build_with_retry, hb0]
    | unrecognizedImage =>
      rcases hb1 : build (filter_unrecognized_images probe html) with e2 | d
      case ok =>
        refine ⟨1, by omega, ?_, ?_, ?_⟩
        · intro j hj
          have : j = 0 := by omega
          subst this
          exact hb0
        · simp [build_with_retry, hb0, hb1, escalation_input]
        · intro _
          simp [build_with_retry, hb0, hb1]
      case error =>
        cases e2 with
        | other =>
          refine ⟨1, by omega, ?_, ?_, ?_⟩
          · intro j hj
            have : j = 0 := by omega
            subst this
            exact hb0
          · simp [build_with_retry, hb0, hb1, escalation_input]
          · intro _
            simp [build_with_retry, hb0, hb1]
        | unrecognizedImage =>
          refine ⟨2, by omega, ?_, ?_, ?_⟩
          · intro j hj
            match j, hj with
            | 0, _ => exact hb0
            | 1, _ => exact hb1
          · simp [build_with_retry, hb0, hb1, escalation_input]
          · omega

/-- C8: a remote image tag whose download fails is replaced by its alt
text (the empty string when the tag has no alt attribute), in both the
HTML pass and the Markdown pass; the download oracle is total, as
`download_image` catches every exception and returns `None`. -/
theorem remote_image_failure_degrades_to_alt
    (download decodeUri ensureLocal : List Char → Option (List Char))
    (tag src : List Char)
    (hsrc : extract_img_attr tag ("src".toList) = some src)
    (hremote : isRemoteSrc src = true)
    (hfail : download src = none) :
    sanitize_replace_img download decodeUri ensureLocal tag
      = (extract_img_attr tag ("alt".toList)).getD []
    ∧ (∀ alt url span, isRemoteSrc url = true → download url = none →
        md_replace_image download alt url span = alt) := by
  constructor
  · have hne : src.isEmpty = false := by
      cases src with
      | nil => cases hremote
      | cons c cs => rfl
    unfold sanitize_replace_img
    rw [hsrc]
    simp only [hne, Bool.false_eq_true, if_false, hremote, if_true, hfail]
  · intro alt url span hurl hdl
    unfold md_replace_image
    rw [if_pos hurl, hdl]
    cases halt : alt.isEmpty
    · simp
    · simp only [if_pos]
      rw [List.isEmpty_iff] at halt
      simp [halt]

/-- C8 witness: with an always-failing download oracle, a concrete
remote image tag degrades to its alt text and a concrete Markdown
image reference degrades to its alt text. -/
theorem remote_image_failure_degrades_to_alt_witness :
    sanitize_replace_img (fun _ => none) (fun _ => none) (fun _ => none)
      ("<img src=\"https://x/a.png\" alt=\"pic\">".toList) = "pic".toList
    ∧ md_replace_image (fun _ => none) ("cat".toList) ("https://x/c.png".toList)
        ("![cat](https://x/c.png)".toList) = "cat".toList := by
  have h := remote_image_failure_degrades_to_alt
    (fun _ => none) (fun _ => none) (fun _ => none)
    ("<img src=\"https://x/a.png\" alt=\"pic\">".toList)
    ("https://x/a.png".toList) (by decide) (by decide) rfl
  constructor
  · rw [h.1]
    decide
  · exact h.2 ("cat".toList) ("https://x/c.png".toList)
      ("![cat](https://x/c.png)".toList) (by decide) rfl

/-! ### Configuration (config.py)

The Python dictionaries exchanged by `to_dict`/`from_dict` hold scalar
JSON values; they are modelled as association lists of `JValue`.  A
value of the wrong scalar type is replaced by the field default here
(the source would store it unchecked; no claim depends on ill-typed
configurations).  Numbers are `ℚ`: every number the source touches is
carried unchanged or produced by exact table lookup. -/

inductive JValue where
  | s (v : String)
  | num (v : ℚ)
  | b (v : Bool)
  | null
  deriving DecidableEq

def JDict := List (String × JValue)

def jGet : JDict → String → Option JValue
  | [], _ => none
  | (k', v) :: rest, k => if k' = k then some v else jGet rest k

/-- Python `data.get(key, default)`. -/
def jGetD (d : JDict) (k : String) (dv : JValue) : JValue :=
  (jGet d k).getD dv

def jStr (d : JDict) (k : String) (dv : String) : String :=
  match jGetD d k (.s dv) with
  | .s v => v
  | _ => dv

def jNum (d : JDict) (k : String) (dv : ℚ) : ℚ :=
  match jGetD d k (.num dv) with
  | .num v => v
  | _ => dv

def jBool (d : JDict) (k : String) (dv : Bool) : Bool :=
  match jGetD d k (.b dv) with
  | .b v => v
  | _ => dv

/-- Python `data.get(key)` for an optional string field (`None` default). -/
def jOptStr (d : JDict) (k : String) : Option String :=
  match jGet d k with
  | some (.s v) => some v
  | _ => none

/-- Python `data.get(key)` for an optional number field. -/
def jOptNum (d : JDict) (k : String) : Option ℚ :=
  match jGet d k with
  | some (.num v) => some v
  | _ => none

/-- config.py `CHINESE_FONT_SIZE_MAP`. -/
def CHINESE_FONT_SIZE_MAP : List (String × ℚ) :=
  [("初号", 42), ("小初", 36), ("一号", 26), ("小一", 24),
   ("二号", 22), ("小二", 18), ("三号", 16), ("小三", 15),
   ("四号", 14), ("小四", 12), ("五号", 10.5), ("小五", 9),
   ("六号", 7.5), ("小六", 6.5), ("七号", 5.5), ("八号", 5)]

def chineseSizeLookup : List (String × ℚ) → String → Option ℚ
  | [], _ => none
  | (k', v) :: rest, k => if k' = k then some v else chineseSizeLookup rest k

/-- Python `float(str)` restricted to plain decimal literals (optional
sign, digits, optional fractional digits); other syntax Python would
accept (exponents, `inf`, …) is rejected, which no claim exercises. -/
def parseDecimal (s : List Char) : Option ℚ :=
  let (sign, body) :=
    match s with
    | '-' :: rest => ((-1 : ℚ), rest)
    | '+' :: rest => ((1 : ℚ), rest)
    | _ => ((1 : ℚ), s)
  let intPart := body.takeWhile Char.isDigit
  let rest := body.drop intPart.length
  match rest with
  | [] =>
    if intPart.isEmpty then none
    else some (sign * (decodeDigits intPart : ℚ))
  | '.' :: fracPart =>
    if fracPart.all Char.isDigit && !(intPart.isEmpty && fracPart.isEmpty) then
      some (sign * ((decodeDigits intPart : ℚ)
        + (decodeDigits fracPart : ℚ) / (10 : ℚ) ^ fracPart.length))
    else none
  | _ => none

/-- config.py `parse_font_size`.  A Python `bool` is an `int`, hence
the `.b` branch; anything unrecognized degrades to 10.5. -/
def parse_font_size (value : JValue) : ℚ :=
  match value with
  | .num q => q
  | .b true => 1
  | .b false => 0
  | .s v =>
    let v' := (pyStrip v.toList).asString
    match chineseSizeLookup CHINESE_FONT_SIZE_MAP v' with
    | some q => q
    | none =>
      match parseDecimal v'.toList with
      | some q => q
      | none => 10.5
  | .null => 10.5

/-- config.py `StyleConfig`. -/
structure StyleConfig where
  font_name : String := "微软雅黑"
  font_size : ℚ := 11
  bold : Bool := false
  italic : Bool := false
  color : String := "000000"
  space_before : ℚ := 0
  space_after : ℚ := 6
  line_spacing : ℚ := 1
  left_indent : ℚ := 0
  background_color : Option String := none
  alignment : String := "left"
  line_spacing_rule : String := "multiple"
  line_spacing_value : Option ℚ := none
  first_line_indent : ℚ := 0
  is_heading : Bool := true
  numbering_format : Option String := none
  deriving DecidableEq

namespace StyleConfig

/-- config.py `StyleConfig.from_dict`. -/
def from_dict (data : JDict) (default_font : String := "微软雅黑") : StyleConfig :=
  { font_name := jStr data "font_name" default_font
    font_size := parse_font_size (jGetD data "font_size" (.num 11))
    bold := jBool data "bold" false
    italic := jBool data "italic" false
    color := jStr data "color" "000000"
    space_before := jNum data "space_before" 0
    space_after := jNum data "space_after" 6
    line_spacing := jNum data "line_spacing" 1
    left_indent := jNum data "left_indent" 0
    background_color := jOptStr data "background_color"
    alignment := jStr data "alignment" "left"
    line_spacing_rule := jStr data "line_spacing_rule" "multiple"
    line_spacing_value := jOptNum data "line_spacing_value"
    first_line_indent := jNum data "first_line_indent" 0
    is_heading := jBool data "is_heading" true
    numbering_format := jOptStr data "numbering_format" }

/-- config.py `StyleConfig.to_dict`. -/
def to_dict (sc : StyleConfig) : JDict :=
  [("font_name", .s sc.font_name),
   ("font_size", .num sc.font_size),
   ("bold", .b sc.bold),
   ("italic", .b sc.italic),
   ("color", .s sc.color),
   ("space_before", .num sc.space_before),
   ("space_after", .num sc.space_after),
   ("line_spacing", .num sc.line_spacing),
   ("left_indent", .num sc.left_indent),
   ("background_color", match sc.background_color with
     | some v => .s v
     | none => .null),
   ("alignment", .s sc.alignment),
   ("line_spacing_rule", .s sc.line_spacing_rule),
   ("line_spacing_value", match sc.line_spacing_value with
     | some v => .num v
     | none => .null),
   ("first_line_indent", .num sc.first_line_indent),
   ("is_heading", .b sc.is_heading),
   ("numbering_format", match sc.numbering_format with
     | some v => .s v
     | none => .null)]

end StyleConfig

/-- C9: `from_dict` after `to_dict` is the identity on `StyleConfig`,
for any `default_font` handed to the parser. -/
theorem styleconfig_roundtrip (sc : StyleConfig) (df : String) :
    StyleConfig.from_dict (StyleConfig.to_dict sc) df = sc := by
  rcases sc with ⟨fn, fs, bo, it, co, sb, sa, ls, li, bc, al, lsr, lsv, fli, ih, nf⟩
  rcases bc with _ | bcv <;> rcases lsv with _ | lsvv <;> rcases nf with _ | nfv <;> rfl

/-- config.py `TableConfig`. -/
structure TableConfig where
  border_style : String := "single"
  border_color : String := "000000"
  border_width : Nat := 4
  header_background_color : Option String := none
  cell_background_color : Option String := none
  alternating_row_color : Option String := none
  cell_padding_top : ℚ := 2
  cell_padding_bottom : ℚ := 2
  cell_padding_left : ℚ := 5
  cell_padding_right : ℚ := 5
  width_mode : String := "auto"
  width_inches : Option ℚ := none
  deriving DecidableEq

/-- config.py `Config` (the fields the converter reads). -/
structure Config where
  default_font : String := "微软雅黑"
  page_width_inches : ℚ := 8.5
  page_height_inches : ℚ := 11
  max_image_width_inches : ℚ := 6
  image_local_dir : String := "./images"
  image_download_timeout : Nat := 30
  image_user_agent : String :=
    "Mozilla/5.0 (Windows NT 10.0; Win64; x64) AppleWebKit/537.36"
  styles : List (String × StyleConfig) := []
  table : TableConfig := {}

def lookupStyle : List (String × StyleConfig) → String → Option StyleConfig
  | [], _ => none
  | (k', v) :: rest, k => if k' = k then some v else lookupStyle rest k

/-- config.py `Config.get_style`: fall back to a fresh default
`StyleConfig` carrying the document default font. -/
def Config.get_style (cfg : Config) (style_name : String) : StyleConfig :=
  (lookupStyle cfg.styles style_name).getD { font_name := cfg.default_font }

/-! ### Document model

python-docx runs and paragraphs, restricted to the properties the
converter reads or writes.  Tri-state docx properties are `Option`s
(`none` = inherited).  Raw XML children appended by the source
(`w:shd`, `w:pBdr`, `w:fldChar`/`w:instrText`, page break) are fields.
-/

/-- converter.py `hex_to_rgb` (well-formed 6-digit input; `lstrip("#")`). -/
def hexDigitVal (c : Char) : Nat :=
  if '0' ≤ c && c ≤ '9' then c.toNat - 48
  else if 'a' ≤ c && c ≤ 'f' then c.toNat - 87
  else if 'A' ≤ c && c ≤ 'F' then c.toNat - 55
  else 0

def hex_to_rgb (hex_color : String) : Nat × Nat × Nat :=
  let h := hex_color.toList.dropWhile (· = '#')
  (16 * hexDigitVal (h.getD 0 '0') + hexDigitVal (h.getD 1 '0'),
   16 * hexDigitVal (h.getD 2 '0') + hexDigitVal (h.getD 3 '0'),
   16 * hexDigitVal (h.getD 4 '0') + hexDigitVal (h.getD 5 '0'))

inductive LineSpacing where
  | pts (v : ℚ)
  | mult (v : ℚ)
  deriving DecidableEq

structure Run where
  text : List Char := []
  fontName : Option String := none
  fontSizePt : Option ℚ := none
  bold : Option Bool := none
  italic : Option Bool := none
  colorRgb : Option (Nat × Nat × Nat) := none
  eastAsia : Option String := none
  shadingFill : Option String := none
  fieldInstr : Option (List Char) := none
  pageBreak : Bool := false
  deriving DecidableEq

structure ParaFormat where
  spaceBefore : Option ℚ := none
  spaceAfter : Option ℚ := none
  alignment : Option String := none
  lineSpacingRule : Option String := none
  lineSpacing : Option LineSpacing := none
  leftIndentInches : Option ℚ := none
  firstLineIndentPt : Option ℚ := none
  deriving DecidableEq

structure Paragraph where
  runs : List Run := []
  styleName : String := "Normal"
  format : ParaFormat := {}
  shadingFill : Option String := none
  leftBorderColor : Option String := none
  deriving DecidableEq

/-- Python-docx `paragraph.text`: concatenation of the run texts. -/
def paraText (p : Paragraph) : List Char :=
  (p.runs.map (fun r => r.text)).flatten

structure TableCell where
  paragraphs : List Paragraph := []
  shadingFills : List String := []
  marginsTwips : Option (Int × Int × Int × Int) := none
  borders : Option (String × Nat × String) := none
  deriving DecidableEq

structure Table where
  rows : List (List TableCell) := []
  autofit : Option Bool := none
  allowAutofit : Option Bool := none
  widthSpec : Option (String × Int) := none
  deriving DecidableEq

structure Document where
  paragraphs : List Paragraph := []
  tables : List Table := []
  deriving DecidableEq

/-- Python `int()` on a float: truncation toward zero. -/
def pyIntTrunc (q : ℚ) : Int :=
  if 0 ≤ q then q.floor else -((-q).floor)

/-- Python truthiness of an optional float (`None` and `0` are falsy). -/
def truthyNum (o : Option ℚ) : Bool :=
  match o with
  | some v => v ≠ 0
  | none => false

/-- Python truthiness of an optional string (`None` and `""` falsy). -/
def truthyStr (o : Option String) : Bool :=
  match o with
  | some s => s ≠ ""
  | none => false

/-! ### Style application (converter.py) -/

/-- converter.py `apply_style_to_run`: name, size and color are
overwritten; bold/italic take the Python `or` of the present flag and
the style flag; the East Asian font follows the style font (the `rPr`
element exists after the preceding assignments). -/
def apply_style_to_run (run : Run) (style_config : StyleConfig) : Run :=
  { run with
    fontName := some style_config.font_name
    fontSizePt := some style_config.font_size
    bold := some ((run.bold == some true) || style_config.bold)
    italic := some ((run.italic == some true) || style_config.italic)
    colorRgb := some (hex_to_rgb style_config.color)
    eastAsia := some style_config.font_name }

/-- converter.py `apply_style_to_paragraph`. -/
def apply_style_to_paragraph (p : Paragraph) (sc : StyleConfig) : Paragraph :=
  let f1 := { p.format with
    spaceBefore := some sc.space_before
    spaceAfter := some sc.space_after }
  let f2 :=
    if sc.alignment = "left" || sc.alignment = "center" || sc.alignment = "right"
        || sc.alignment = "justify" then
      { f1 with alignment := some sc.alignment }
    else f1
  let f3 :=
    if sc.line_spacing_rule = "exact" && truthyNum sc.line_spacing_value then
      { f2 with lineSpacingRule := some "exactly"
                lineSpacing := some (.pts (sc.line_spacing_value.getD 0)) }
    else if sc.line_spacing_rule = "at_least" && truthyNum sc.line_spacing_value then
      { f2 with lineSpacingRule := some "at_least"
                lineSpacing := some (.pts (sc.line_spacing_value.getD 0)) }
    else if sc.line_spacing_rule = "single" then
      { f2 with lineSpacingRule := some "single" }
    else if sc.line_spacing_rule = "1.5" then
      { f2 with lineSpacingRule := some "one_point_five" }
    else if sc.line_spacing_rule = "double" then
      { f2 with lineSpacingRule := some "double" }
    else if sc.line_spacing_rule = "multiple" then
      let f' := { f2 with lineSpacingRule := some "multiple" }
      if truthyNum sc.line_spacing_value then
        { f' with lineSpacing := some (.mult (sc.line_spacing_value.getD 0)) }
      else if sc.line_spacing > 0 then
        { f' with lineSpacing := some (.mult sc.line_spacing) }
      else f'
    else if sc.line_spacing > 0 then
      { f2 with lineSpacing := some (.mult sc.line_spacing) }
    else f2
  let f4 :=
    if sc.left_indent > 0 then { f3 with leftIndentInches := some sc.left_indent }
    else f3
  let f5 :=
    if sc.first_line_indent > 0 then
      { f4 with firstLineIndentPt := some (sc.first_line_indent * sc.font_size) }
    else f4
  { p with format := f5 }

/-- converter.py `get_heading_level`: parse the digits of a
`Heading N` style name. -/
def pyParseInt (s : List Char) : Option Nat :=
  let t := pyStrip s
  if !t.isEmpty && t.all Char.isDigit then some (decodeDigits t) else none

def get_heading_level (p : Paragraph) : Option Nat :=
  if List.isPrefixOf ("Heading".toList) p.styleName.toList then
    let s1 := replaceAllLit ("Heading ".toList) [] p.styleName.toList.length
      p.styleName.toList
    let s2 := replaceAllLit ("Heading".toList) [] s1.length s1
    pyParseInt s2
  else none

/-- converter.py `is_code_block_paragraph`: a paragraph-level shading
fill other than auto/white/none marks a code block. -/
def is_code_block_paragraph (p : Paragraph) : Bool :=
  match p.shadingFill with
  | some fill =>
    let low := (fill.toList.map lowerChar).asString
    fill ≠ "" && !(low = "auto" || low = "ffffff" || low = "none")
  | none => false

/-- First blockquote index whose placeholder equals the paragraph
text (the inner `for idx, quote_text in enumerate(blockquotes)` loop
with its `break`). -/
def findBqIdx (text : List Char) : Nat → List (List Char) → Option (Nat × List Char)
  | _, [] => none
  | idx, q :: rest =>
    if text = blockquote_placeholder idx then some (idx, q)
    else findBqIdx text (idx + 1) rest

/-- converter.py `replace_blockquote_placeholders`: each matching
placeholder paragraph is cleared and rebuilt with one run styled from
the blockquote `StyleConfig`, paragraph formatting applied, and a left
border in the blockquote color added. -/
def replace_blockquote_placeholders (doc : Document)
    (blockquotes : List (List Char)) (config : Config) : Document :=
  if blockquotes.isEmpty then doc
  else
    let style_config := config.get_style "blockquote"
    { doc with paragraphs := doc.paragraphs.map (fun p =>
        match findBqIdx (pyStrip (paraText p)) 0 blockquotes with
        | some (_, quote_text) =>
          let run : Run :=
            { text := quote_text
              fontName := some style_config.font_name
              fontSizePt := some style_config.font_size
              italic := some style_config.italic
              bold := some style_config.bold
              colorRgb := some (hex_to_rgb style_config.color)
              eastAsia := some style_config.font_name }
          let p1 := apply_style_to_paragraph { p with runs := [run] } style_config
          { p1 with leftBorderColor := some style_config.color }
        | none => p) }

/-- Paragraph styling applied to both the paragraph format and every
run (the tail of the `apply_styles_to_document` loop body). -/
def styleParaAndRuns (p : Paragraph) (sc : StyleConfig) : Paragraph :=
  let p1 := apply_style_to_paragraph p sc
  { p1 with runs := p1.runs.map (fun r => apply_style_to_run r sc) }

/-- One iteration of the `apply_styles_to_document` paragraph loop:
skip code blocks, resolve the heading/body role, prepend the heading
number to the first run, then restyle paragraph and runs. -/
def styleOneParagraph (config : Config) (numbering : List (Nat × Nat))
    (p : Paragraph) : List (Nat × Nat) × Paragraph :=
  if is_code_block_paragraph p then (numbering, p)
  else
    match get_heading_level p with
    | some heading_level =>
      let style_config := config.get_style ("heading_" ++ (pyStr heading_level).asString)
      let withNumber :=
        match style_config.numbering_format, p.runs with
        | some fmt, first_run :: rest_runs =>
          if fmt ≠ "" then
            let res := get_number numbering heading_level (some fmt)
            if res.1 ≠ [] then
              (res.2, { p with runs :=
                { first_run with text := res.1 ++ first_run.text } :: rest_runs })
            else (res.2, p)
          else (numbering, p)
        | _, _ => (numbering, p)
      (withNumber.1, styleParaAndRuns withNumber.2 style_config)
    | none => (numbering, styleParaAndRuns p (config.get_style "body"))

/-- The paragraph walk of `apply_styles_to_document`, threading the
`HeadingNumbering` state. -/
def styleParagraphs (config : Config) (numbering : List (Nat × Nat)) :
    List Paragraph → List Paragraph
  | [] => []
  | p :: rest =>
    let r := styleOneParagraph config numbering p
    r.2 :: styleParagraphs config r.1 rest

/-- The border style mapping of `apply_table_styles`. -/
def borderVal (style : String) : String :=
  if style = "single" then "single"
  else if style = "double" then "double"
  else if style = "dotted" then "dotted"
  else if style = "dashed" then "dashed"
  else if style = "none" then "nil"
  else "single"

/-- The per-cell body of the `apply_table_styles` row/cell loop:
paragraph text styles (header style on row 0, cell style elsewhere),
then background shading (header fill on row 0; on later rows the
alternating fill on even indices, else the flat cell fill), then cell
margins and borders. -/
def style_table_cell (config : Config) (i : Nat) (cell : TableCell) : TableCell :=
  let tc := config.table
  let styled := cell.paragraphs.map (fun paragraph =>
    let style_config :=
      if i = 0 then config.get_style "table_header" else config.get_style "table_cell"
    styleParaAndRuns paragraph style_config)
  let fill : Option String :=
    if i = 0 && truthyStr tc.header_background_color then
      tc.header_background_color
    else if 0 < i then
      if truthyStr tc.alternating_row_color && i % 2 = 0 then
        tc.alternating_row_color
      else if truthyStr tc.cell_background_color then
        tc.cell_background_color
      else none
    else none
  let margins := some (pyIntTrunc (tc.cell_padding_top * 20),
    pyIntTrunc (tc.cell_padding_bottom * 20),
    pyIntTrunc (tc.cell_padding_left * 20),
    pyIntTrunc (tc.cell_padding_right * 20))
  let bv := borderVal tc.border_style
  { cell with
    paragraphs := styled
    shadingFills := cell.shadingFills ++ fill.toList
    marginsTwips := margins
    borders := if bv ≠ "nil" then some (bv, tc.border_width, tc.border_color)
      else cell.borders }

/-- Row walk with the row index, `for i, row in enumerate(table.rows)`. -/
def styleTableRows (config : Config) : Nat → List (List TableCell) → List (List TableCell)
  | _, [] => []
  | i, row :: rest =>
    row.map (style_table_cell config i) :: styleTableRows config (i + 1) rest

/-- converter.py `apply_table_styles` for one table: width mode, then
the row/cell loop. -/
def style_table (config : Config) (table : Table) : Table :=
  let tc := config.table
  let t1 :=
    if tc.width_mode = "full" then
      { table with
        autofit := some false
        allowAutofit := some false
        widthSpec := some ("pct", 5000) }
    else if tc.width_mode = "fixed" && truthyNum tc.width_inches then
      { table with
        autofit := some false
        widthSpec := some ("dxa", pyIntTrunc ((tc.width_inches.getD 0) * 1440)) }
    else table
  { t1 with rows := styleTableRows config 0 t1.rows }

/-- converter.py `apply_table_styles` over the document's tables. -/
def apply_table_styles (doc : Document) (config : Config) : Document :=
  { doc with tables := doc.tables.map (style_table config) }

/-- converter.py `apply_styles_to_document`: style every paragraph
with a fresh `HeadingNumbering`, then the tables. -/
def apply_styles_to_document (doc : Document) (config : Config) : Document :=
  apply_table_styles
    { doc with paragraphs := styleParagraphs config [] doc.paragraphs } config

/-- The `w:instrText` content built by `add_toc`. -/
def toc_instr_text (max_level : Int) : List Char :=
  " TOC \\o \"1-".toList ++ pyStrInt max_level ++ "\" \\h \\z \\u ".toList

/-- converter.py `add_toc`.  `document.paragraphs[0]` raises on an
empty document (`none` here; `convert` only calls this when at least
one paragraph exists).  `insert_paragraph_before` places its new
paragraph immediately before the receiver, so the title (inserted
first, before the old first paragraph) ends up after both the TOC
field paragraph and the page-break paragraph, which are each inserted
before the title afterwards. -/
def add_toc (doc : Document) (title : String) (max_level : Int) : Option Document :=
  match doc.paragraphs with
  | [] => none
  | first :: rest =>
    let toc_title : Paragraph :=
      { runs := [{ text := title.toList }], styleName := "Heading 1" }
    let field_run : Run := { fieldInstr := some (toc_instr_text max_level) }
    let placeholder_run : Run :=
      { text :=
          "Right-click here and select \x27Update Field\x27 to generate TOC".toList
        italic := some true
        colorRgb := some (128, 128, 128) }
    let toc_paragraph : Paragraph := { runs := [field_run, placeholder_run] }
    let page_break_paragraph : Paragraph := { runs := [{ pageBreak := true }] }
    some { doc with paragraphs :=
        toc_paragraph :: page_break_paragraph :: toc_title :: first :: rest }

/-! ### C5: role styles union with inline emphasis -/

/-- C5: after `apply_style_to_run`, the bold (resp. italic) flag is
true exactly when the run was already bold (resp. italic) or the style
asks for it — the role style unions with inline emphasis and can never
remove it. -/
theorem apply_style_to_run_unions_emphasis (run : Run) (sc : StyleConfig) :
    ((apply_style_to_run run sc).bold = some true
      ↔ (run.bold = some true ∨ sc.bold = true))
    ∧ ((apply_style_to_run run sc).italic = some true
      ↔ (run.italic = some true ∨ sc.italic = true)) := by
  unfold apply_style_to_run
  constructor <;> simp

/-! ### C10: table shading -/

/-- C10: row 0 takes the header fill whenever one is configured; a
non-header row with even index takes the alternating fill when one is
configured; a non-header row with odd index takes the flat cell fill
when configured and no fill when the cell fill is absent. -/
theorem table_row_shading (config : Config) (cell : TableCell) (i : Nat) :
    (∀ c, 0 < i → i % 2 = 0 → config.table.alternating_row_color = some c →
      c ≠ "" →
      (style_table_cell config i cell).shadingFills = cell.shadingFills ++ [c])
    ∧ (∀ c, 0 < i → i % 2 = 1 → config.table.cell_background_color = some c →
      c ≠ "" →
      (style_table_cell config i cell).shadingFills = cell.shadingFills ++ [c])
    ∧ (0 < i → i % 2 = 1 → config.table.cell_background_color = none →
      (style_table_cell config i cell).shadingFills = cell.shadingFills)
    ∧ (∀ h, config.table.header_background_color = some h → h ≠ "" →
      (style_table_cell config 0 cell).shadingFills = cell.shadingFills ++ [h]) := by
  refine ⟨?_, ?_, ?_, ?_⟩
  · intro c hi heven halt hne
    have hi0 : ¬ i = 0 := by omega
    simp [style_table_cell, hi0, hi, heven, halt, truthyStr, hne]
  · intro c hi hodd hcell hne
    have hi0 : ¬ i = 0 := by omega
    have hev : ¬ i % 2 = 0 := by omega
    simp [style_table_cell, hi0, hi, hev, hcell, truthyStr, hne]
  · intro hi hodd hcell
    have hi0 : ¬ i = 0 := by omega
    have hev : ¬ i % 2 = 0 := by omega
    simp [style_table_cell, hi0, hi, hev, hcell, truthyStr]
  · intro h hhead hne
    simp [style_table_cell, hhead, truthyStr, hne]

/-- C10 witness: a table config with header fill `D9E2F3`, flat fill
`FFFFFF` and alternating fill `EEEEEE` shades a row-2 cell `EEEEEE`, a
row-1 cell `FFFFFF`, and a row-0 cell `D9E2F3`. -/
theorem table_row_shading_witness :
    (style_table_cell
      { table := { header_background_color := some "D9E2F3",
                   cell_background_color := some "FFFFFF",
                   alternating_row_color := some "EEEEEE" } } 2 {}).shadingFills
      = ["EEEEEE"]
    ∧ (style_table_cell
      { table := { header_background_color := some "D9E2F3",
                   cell_background_color := some "FFFFFF",
                   alternating_row_color := some "EEEEEE" } } 1 {}).shadingFills
      = ["FFFFFF"]
    ∧ (style_table_cell
      { table := { header_background_color := some "D9E2F3",
                   cell_background_color := some "FFFFFF",
                   alternating_row_color := some "EEEEEE" } } 0 {}).shadingFills
      = ["D9E2F3"] := by
  refine ⟨?_, ?_, ?_⟩
  · exact (table_row_shading _ {} 2).1 "EEEEEE" (by decide) (by decide) rfl
      (by decide)
  · exact (table_row_shading _ {} 1).2.1 "FFFFFF" (by decide) (by decide) rfl
      (by decide)
  · exact (table_row_shading _ {} 0).2.2.2 "D9E2F3" rfl (by decide)

/-! ### C4: blockquote styling is overwritten by the role pass -/

/-- A config whose blockquote role is italic, gray (`666666`), font
楷体 — the `DEFAULT_CONFIG` template shape; the body role falls back
to the default `StyleConfig` (black, default font). -/
def bqDemoConfig : Config :=
  { styles := [("blockquote",
      { font_name := "楷体", italic := true, color := "666666" })] }

/-- A document as built by the tree-build stage from one extracted
blockquote: a single placeholder paragraph. -/
def bqDemoDoc : Document :=
  { paragraphs := [{ runs := [{ text := "__BLOCKQUOTE_PLACEHOLDER_0__".toList }] }] }

/-- The document after the two pipeline stages `convert` runs on it:
blockquote re-injection, then the role-styling pass. -/
def bqFinalDoc : Document :=
  apply_styles_to_document
    (replace_blockquote_placeholders bqDemoDoc ["quoted".toList] bqDemoConfig)
    bqDemoConfig

/-- C4: after the complete pipeline the blockquote paragraph keeps its
left border (in the blockquote color) and its italic flag, but its run
carries the body style's black color `(0,0,0)` and the default font —
not the configured blockquote color `666666 = (102,102,102)` and font
楷体: `apply_styles_to_document` re-styles the paragraph with the body
role and overwrites what `replace_blockquote_placeholders` set. -/
theorem blockquote_style_overwritten_by_role_pass :
    bqFinalDoc.paragraphs.map (fun p => p.leftBorderColor) = [some "666666"]
    ∧ bqFinalDoc.paragraphs.map (fun p => p.runs.map (fun r => r.italic))
      = [[some true]]
    ∧ bqFinalDoc.paragraphs.map (fun p => p.runs.map (fun r => r.colorRgb))
      = [[some (0, 0, 0)]]
    ∧ bqFinalDoc.paragraphs.map (fun p => p.runs.map (fun r => r.fontName))
      = [[some "微软雅黑"]]
    ∧ hex_to_rgb (bqDemoConfig.get_style "blockquote").color = (102, 102, 102)
    ∧ (bqDemoConfig.get_style "blockquote").font_name = "楷体"
    ∧ ((102, 102, 102) : Nat × Nat × Nat) ≠ (0, 0, 0)
    ∧ "楷体" ≠ "微软雅黑" := by
  refine ⟨by decide, by decide, by decide, by decide, by decide, by decide,
    by decide, by decide⟩

/-! ### C6 / C7: table-of-contents insertion -/

/-- C6: evaluating `add_toc` on a one-paragraph document shows the
order the code actually produces: the TOC field paragraph first, then
the page-break paragraph, then the `Heading 1` title, then the
original content — the title is NOT first. -/
theorem add_toc_order_as_implemented :
    (add_toc { paragraphs := [{ runs := [{ text := "Hello".toList }] }] }
        "目录" 3).map (fun res =>
      (res.paragraphs.map (fun p => p.styleName),
       res.paragraphs.map (fun p =>
        (paraText p, p.runs.map (fun r => (r.fieldInstr.isSome, r.pageBreak))))))
      = some
        (["Normal", "Normal", "Heading 1", "Normal"],
         [(("Right-click here and select \x27Update Field\x27 to generate TOC".toList),
            [(true, false), (false, false)]),
          ([], [(false, true)]),
          ("目录".toList, [(false, false)]),
          ("Hello".toList, [(false, false)])]) := by
  decide

/-- C7 counterexample: with TOC max depth 12 the field instruction
embeds `1-12` verbatim; it differs from the instruction a 1–9 clamp
would produce. -/
theorem toc_depth_not_clamped_counterexample :
    (add_toc { paragraphs := [{ runs := [{ text := "x".toList }] }] } "TOC" 12).map
      (fun res => (res.paragraphs.getD 0 {}).runs.map (fun r => r.fieldInstr))
      = some [some (" TOC \\o \"1-12\" \\h \\z \\u ".toList), none]
    ∧ toc_instr_text 12 ≠ toc_instr_text 9
    ∧ toc_instr_text 12 ≠ toc_instr_text 1 := by
  refine ⟨by decide, by decide, by decide⟩

/-- C7 (amended): the TOC max depth is embedded in the field
instruction exactly as supplied, with no clamping. -/
theorem toc_depth_used_verbatim (doc : Document) (title : String) (v : Int)
    (h : doc.paragraphs ≠ []) :
    (add_toc doc title v).isSome = true ∧
    ((((add_toc doc title v).getD {}).paragraphs.getD 0 {}).runs.getD 0 {}).fieldInstr
      = some (toc_instr_text v) := by
  rcases hd : doc.paragraphs with _ | ⟨first, rest⟩
  · exact absurd hd h
  · unfold add_toc
    rw [hd]
    exact ⟨rfl, rfl⟩

/-- C7 amended-claim witness: depth 12 on a concrete document. -/
theorem toc_depth_used_verbatim_witness :
    (add_toc { paragraphs := [{ runs := [{ text := "x".toList }] }] } "TOC" 12).isSome
      = true ∧
    ((((add_toc { paragraphs := [{ runs := [{ text := "x".toList }] }] } "TOC"
        12).getD {}).paragraphs.getD 0 {}).runs.getD 0 {}).fieldInstr
      = some (toc_instr_text 12) :=
  toc_depth_used_verbatim
    { paragraphs := [{ runs := [{ text := "x".toList }] }] } "TOC" 12 (by decide)

end Md2Word
